import Mathlib

/-!
POC-lambda: the parquet decode-and-load pipeline of `main.go`.

A shallow embedding of `HandleRequest`, `readParquetFile` and
`sendOrdersToDataBase`.  Every call into a library (the file system, the S3
downloader, the parquet column reader, `database/sql`, `strconv`, the process
environment) is answered by a field of `World`, a deterministic oracle; the
program text between those calls is transcribed statement by statement.  Each
function returns the list of library calls it made, each with the answer it
received (`Event`), and how it ended (`Outcome`).

Conventions:
* Go `string` is `String`; the program only passes strings through, concatenates
  them and tests one ASCII suffix.
* `int32` and `int` are `Int`; the program does no arithmetic on them.
* `float64` is its IEEE-754 bit pattern; the program does no arithmetic on it.
* `log.Fatal` / `log.Fatalln` end the process at once (`os.Exit(1)`, deferred
  calls do not run); a run-time panic unwinds and runs the deferred calls.
* Memory exhaustion is not modelled.
-/

namespace POCLambda

/-- Go `error` values; `none` is `nil`. -/
abbrev Error := String

/-- Go `float64`, as the bit pattern of the IEEE-754 binary64 value. -/
structure float64 where
  bits : Nat
deriving DecidableEq, Repr

/-- The struct `Order` (main.go:167-174). -/
structure Order where
  OrderID : Int
  FirstName : String
  LastName : String
  Email : String
  Quantity : Int
  OrderTotal : float64
deriving DecidableEq, Repr

/-- The dynamic value of an `interface{}` entry returned by the column reader:
`nil`, one of the physical types of package `ParquetType`, or any other type. -/
inductive Value where
  | nil
  | BOOLEAN (b : Bool)
  | INT32 (v : Int)
  | INT64 (v : Int)
  | INT96 (s : String)
  | FLOAT (bits : Nat)
  | DOUBLE (v : float64)
  | BYTE_ARRAY (s : String)
  | FIXED_LEN_BYTE_ARRAY (s : String)
  | other (typeName : String)
deriving DecidableEq, Repr

/-- An argument passed to the variadic `stmt.Exec(args ...interface{})`. -/
inductive Arg where
  | int32 (v : Int)
  | string (s : String)
  | float64 (v : float64)
deriving DecidableEq, Repr

/-- The statement built by `pq.CopyIn(table, columns...)`. -/
structure CopyIn where
  table : String
  columns : List String
deriving DecidableEq, Repr

/-- The struct `events.S3Object` (the fields of the notification's object). -/
structure S3Object where
  Key : String
  Size : Int
  ETag : String
deriving DecidableEq, Repr

/-- One entry of `events.S3Event.Records`: `rec.S3.Bucket.Name` and `rec.S3.Object`. -/
structure S3EventRecord where
  BucketName : String
  Object : S3Object
deriving DecidableEq, Repr

/-- The struct `events.S3Event`. -/
structure S3Event where
  Records : List S3EventRecord
deriving DecidableEq, Repr

/-- Run-time panics the program can raise. -/
inductive Panic where
  | indexOutOfRange (i : Nat) (len : Nat)
  | interfaceConversion (want : String)
  | nilDereference
  | makesliceCapOutOfRange
deriving DecidableEq, Repr

/-- How a function of the program ends: it returns a value, `log.Fatal` ends the
process (`msg` is the logged text, without the trailing newline), or it panics. -/
inductive Outcome (α : Type) where
  | returned (v : α)
  | fatal (msg : String)
  | panic (p : Panic)
deriving DecidableEq, Repr

/-- A library call made by the program, with the answer it received. -/
inductive Event where
  | Print (s : String)
  | osCreate (path : String) (err : Option Error)
  | NewSession (err : Option Error)
  | CredentialsGet (err : Option Error)
  | Download (bucket key : String) (n : Int) (err : Option Error)
  | readParquetFile (filepath : String)
  | NewLocalFileReader (path : String) (err : Option Error)
  | NewParquetColumnReader (np : Int) (err : Option Error)
  | GetNumRows (n : Int)
  | ReadColumnByIndex (index : Int) (num : Int) (values : List Value)
  | ReadColumnByPath (pathStr : String) (num : Int) (values : List Value)
  | ReadStop
  | frClose
  | sendOrdersToDataBase (orders : List Order)
  | sqlOpen (driverName dataSourceName : String) (err : Option Error)
  | dbClose
  | Begin (err : Option Error)
  | Prepare (query : CopyIn) (err : Option Error)
  | Exec (args : List Arg) (err : Option Error)
  | stmtClose (err : Option Error)
  | Commit (err : Option Error)
deriving DecidableEq, Repr

/-- The answers of everything outside the program.  `Exec k args` is the answer
to the `k`-th call of `stmt.Exec` (counted from 0) in a run. -/
structure World where
  osCreate : String → Option Error
  NewSession : Option Error
  CredentialsGet : Option Error
  Download : String → String → Int × Option Error
  NewLocalFileReader : String → Option Error
  NewParquetColumnReader : Option Error
  GetNumRows : Int
  ReadColumnByIndex : Int → Int → List Value
  ReadColumnByPath : String → Int → List Value
  Getenv : String → String
  Atoi : String → Int × Option Error
  sqlOpen : String → Option Error
  Begin : Option Error
  Prepare : CopyIn → Option Error
  Exec : Nat → List Arg → Option Error
  stmtClose : Option Error
  Commit : Option Error

/-- The argument list of `stmt.Exec(order.OrderID, order.FirstName, order.LastName,
order.Email, order.Quantity, order.OrderTotal)` (main.go:145). -/
def execArgs (order : Order) : List Arg :=
  [Arg.int32 order.OrderID, Arg.string order.FirstName, Arg.string order.LastName,
   Arg.string order.Email, Arg.int32 order.Quantity, Arg.float64 order.OrderTotal]

/-- The loop of main.go:144-146: `for _, order := range orders { _, err = stmt.Exec(...) }`.
`k` is the number of `Exec` calls made so far and `err` the current value of the
variable `err`; the result is the calls made and the value of `err` after the loop. -/
def execLoop (w : World) : List Order → Nat → Option Error → List Event × Option Error
  | [], _, err => ([], err)
  | order :: rest, k, _ =>
    let err := w.Exec k (execArgs order)
    let r := execLoop w rest (k + 1) err
    (Event.Exec (execArgs order) err :: r.1, r.2)

/-- The text of `fmt.Sprintf("host=%s port=%d user=%s password=%s dbname=%s sslmode=disable", ...)`
(main.go:124-126). -/
def psqlInfo (host : String) (port : Int) (user password dbname : String) : String :=
  "host=" ++ host ++ " port=" ++ toString port ++ " user=" ++ user ++
    " password=" ++ password ++ " dbname=" ++ dbname ++ " sslmode=disable"

/-- The statement of main.go:139. -/
def copyInTestOrders : CopyIn :=
  ⟨"test_orders", ["orderid", "firstname", "lastname", "email", "quantity", "ordertotal"]⟩

/-- The function `sendOrdersToDataBase` (main.go:116-165). -/
def sendOrdersToDataBase (w : World) (orders : List Order) : List Event × Outcome Unit :=
  let host := w.Getenv "HOST"
  -- port, err := strconv.Atoi(os.Getenv("PORT")): err is overwritten at line 128, unread
  let port := (w.Atoi (w.Getenv "PORT")).1
  let user := w.Getenv "rdsuser"
  let password := w.Getenv "rdspassword"
  let dbname := w.Getenv "rdsdb"
  let info := psqlInfo host port user password dbname
  let t1 := [Event.sqlOpen "postgres" info (w.sqlOpen info)]
  match w.sqlOpen info with
  | some e => (t1, Outcome.fatal e)
  | none =>
    let t2 := t1 ++ [Event.Begin w.Begin]
    match w.Begin with
    | some e => (t2, Outcome.fatal e)
    | none =>
      let t3 := t2 ++ [Event.Prepare copyInTestOrders (w.Prepare copyInTestOrders)]
      match w.Prepare copyInTestOrders with
      | some e => (t3, Outcome.fatal e)
      | none =>
        let loop := execLoop w orders 0 none
        let t4 := t3 ++ loop.1
        match loop.2 with
        | some e => (t4, Outcome.fatal e)
        | none =>
          let t5 := t4 ++ [Event.Exec [] (w.Exec orders.length [])]
          match w.Exec orders.length [] with
          | some e => (t5, Outcome.fatal e)
          | none =>
            let t6 := t5 ++ [Event.stmtClose w.stmtClose]
            match w.stmtClose with
            | some e => (t6, Outcome.fatal e)
            | none =>
              let t7 := t6 ++ [Event.Commit w.Commit]
              match w.Commit with
              | some e => (t7, Outcome.fatal e)
              | none => (t7 ++ [Event.dbClose], Outcome.returned ())

/-- Go `strings.HasSuffix`: `len(s) >= len(suffix) && s[len(s)-len(suffix):] == suffix`. -/
def HasSuffix (s suffix : String) : Bool :=
  decide (suffix.length ≤ s.length) && (s.data.drop (s.length - suffix.length) == suffix.data)

/-- The index expression `xs[i]` on a slice: panics when `i` is out of range. -/
def index (xs : List Value) (i : Nat) : Except Panic Value :=
  match xs[i]? with
  | some v => Except.ok v
  | none => Except.error (Panic.indexOutOfRange i xs.length)

/-- The type assertion `x.(ParquetType.INT32)` followed by `int32(...)`. -/
def assertINT32 : Value → Except Panic Int
  | Value.INT32 v => Except.ok v
  | _ => Except.error (Panic.interfaceConversion "ParquetType.INT32")

/-- The type assertion `x.(ParquetType.BYTE_ARRAY)` followed by `string(...)`. -/
def assertBYTE_ARRAY : Value → Except Panic String
  | Value.BYTE_ARRAY s => Except.ok s
  | _ => Except.error (Panic.interfaceConversion "ParquetType.BYTE_ARRAY")

/-- The type assertion `x.(ParquetType.DOUBLE)` followed by `float64(...)`. -/
def assertDOUBLE : Value → Except Panic float64
  | Value.DOUBLE v => Except.ok v
  | _ => Except.error (Panic.interfaceConversion "ParquetType.DOUBLE")

/-- The composite literal `Order{...}` of main.go:104-111 at row `i`, its six
field expressions evaluated in the order written. -/
def buildOrder (orderIDs firstNames lastNames emails quantities orderTotals : List Value)
    (i : Nat) : Except Panic Order := do
  let orderID ← index orderIDs i >>= assertINT32
  let firstName ← index firstNames i >>= assertBYTE_ARRAY
  let lastName ← index lastNames i >>= assertBYTE_ARRAY
  let email ← index emails i >>= assertBYTE_ARRAY
  let quantity ← index quantities i >>= assertINT32
  let orderTotal ← index orderTotals i >>= assertDOUBLE
  pure ⟨orderID, firstName, lastName, email, quantity, orderTotal⟩

/-- The loop of main.go:103-112, `for i := 0; i < rows; i++ { orders = append(orders, ...) }`:
the first argument is the number of iterations left (`rows - i`), then `i` and `orders`. -/
def orderLoop (orderIDs firstNames lastNames emails quantities orderTotals : List Value) :
    Nat → Nat → List Order → Except Panic (List Order)
  | 0, _, orders => Except.ok orders
  | n + 1, i, orders =>
    match buildOrder orderIDs firstNames lastNames emails quantities orderTotals i with
    | Except.error p => Except.error p
    | Except.ok order =>
      orderLoop orderIDs firstNames lastNames emails quantities orderTotals n (i + 1)
        (orders ++ [order])

/-- The deferred calls of `readParquetFile`, in the order they run:
`pr.ReadStop()` (main.go:87), then `fr.Close()` (main.go:82). -/
def deferred : List Event := [Event.ReadStop, Event.frClose]

/-- The function `readParquetFile` (main.go:73-114). -/
def readParquetFile (w : World) (filepath : String) : List Event × Outcome Unit :=
  if !HasSuffix filepath ".parquet" then
    ([], Outcome.fatal "Only capable of parsing parquet files")
  else
    let t1 := [Event.NewLocalFileReader filepath (w.NewLocalFileReader filepath)]
    match w.NewLocalFileReader filepath with
    | some e => (t1, Outcome.fatal ("Unable to open file " ++ e))
    | none =>
      let t2 := t1 ++ [Event.NewParquetColumnReader 4 w.NewParquetColumnReader]
      match w.NewParquetColumnReader with
      | some _ => (t2, Outcome.fatal "Unable to create column reader")
      | none =>
        let rows := w.GetNumRows
        let orderIDs := w.ReadColumnByIndex 0 rows
        let firstNames := w.ReadColumnByPath "FirstName" rows
        let lastNames := w.ReadColumnByPath "LastName" rows
        let emails := w.ReadColumnByPath "Email" rows
        let quantities := w.ReadColumnByIndex 4 rows
        let orderTotals := w.ReadColumnByIndex 5 rows
        let t3 := t2 ++ [Event.GetNumRows rows,
          Event.ReadColumnByIndex 0 rows orderIDs,
          Event.ReadColumnByPath "FirstName" rows firstNames,
          Event.ReadColumnByPath "LastName" rows lastNames,
          Event.ReadColumnByPath "Email" rows emails,
          Event.ReadColumnByIndex 4 rows quantities,
          Event.ReadColumnByIndex 5 rows orderTotals]
        -- orders := make([]Order, 0, rows)
        if rows < 0 then
          (t3 ++ deferred, Outcome.panic Panic.makesliceCapOutOfRange)
        else
          match orderLoop orderIDs firstNames lastNames emails quantities orderTotals
              rows.toNat 0 [] with
          | Except.error p => (t3 ++ deferred, Outcome.panic p)
          | Except.ok orders =>
            let r := sendOrdersToDataBase w orders
            let t4 := t3 ++ [Event.sendOrdersToDataBase orders] ++ r.1
            match r.2 with
            | Outcome.returned _ => (t4 ++ deferred, Outcome.returned ())
            | Outcome.fatal msg => (t4, Outcome.fatal msg)
            | Outcome.panic p => (t4 ++ deferred, Outcome.panic p)

/-- The function `HandleRequest` (main.go:29-71).  The values built by `fmt.Errorf`
at lines 42, 52 and 63 are discarded by the program and leave no trace. -/
def HandleRequest (w : World) (s3Event : S3Event) :
    List Event × Outcome (S3Object × Option Error) :=
  match s3Event.Records with
  | [] => ([], Outcome.panic (Panic.indexOutOfRange 0 0))
  | rec :: _ =>
    let bucket := rec.BucketName
    let filename := rec.Object.Key
    let tmpfilepath := "/tmp/" ++ filename
    let t1 := [Event.Print ("Bucket " ++ bucket ++ " Filename " ++ filename ++ "\n"),
      Event.osCreate tmpfilepath (w.osCreate tmpfilepath),
      Event.NewSession w.NewSession]
    match w.NewSession with
    | some _ =>
      -- sess is nil: sess.Config dereferences it
      (t1, Outcome.panic Panic.nilDereference)
    | none =>
      let n := (w.Download bucket filename).1
      let err := (w.Download bucket filename).2
      let t2 := t1 ++ [Event.CredentialsGet w.CredentialsGet,
        Event.Print ("Downloading " ++ bucket ++ "/" ++ filename ++ "\n"),
        Event.Download bucket filename n err,
        Event.Print ("file downloaded, " ++ toString n ++ " bytes\n"),
        Event.readParquetFile tmpfilepath]
      let r := readParquetFile w tmpfilepath
      match r.2 with
      | Outcome.returned _ => (t2 ++ r.1, Outcome.returned (rec.Object, err))
      | Outcome.fatal msg => (t2 ++ r.1, Outcome.fatal msg)
      | Outcome.panic p => (t2 ++ r.1, Outcome.panic p)

/-- The batch handed over, when the event is a call of `sendOrdersToDataBase`. -/
def loaderCallOf : Event → Option (List Order)
  | Event.sendOrdersToDataBase orders => some orders
  | _ => none

/-- The batches of all calls of `sendOrdersToDataBase` recorded in a trace, in order. -/
def loaderCalls (t : List Event) : List (List Order) :=
  t.filterMap loaderCallOf

/-- The entry `xs[i]` is present and has dynamic type `ParquetType.INT32`. -/
def isINT32At (xs : List Value) (i : Nat) : Bool :=
  match xs[i]? with
  | some (Value.INT32 _) => true
  | _ => false

/-- The entry `xs[i]` is present and has dynamic type `ParquetType.BYTE_ARRAY`. -/
def isBYTE_ARRAYAt (xs : List Value) (i : Nat) : Bool :=
  match xs[i]? with
  | some (Value.BYTE_ARRAY _) => true
  | _ => false

/-- The entry `xs[i]` is present and has dynamic type `ParquetType.DOUBLE`. -/
def isDOUBLEAt (xs : List Value) (i : Nat) : Bool :=
  match xs[i]? with
  | some (Value.DOUBLE _) => true
  | _ => false

/-! ## Concrete worlds -/

/-- The binary64 bit pattern of 9.99. -/
def f9_99 : float64 := ⟨0x4023FAE147AE147B⟩

/-- The binary64 bit pattern of 4.50. -/
def f4_50 : float64 := ⟨0x4012000000000000⟩

/-- The binary64 bit pattern of 20.00. -/
def f20_00 : float64 := ⟨0x4034000000000000⟩

/-- The three rows of the end-to-end scenario. -/
def orders3 : List Order :=
  [⟨1, "A", "B", "a@x.com", 2, f9_99⟩, ⟨2, "C", "D", "c@x.com", 1, f4_50⟩,
   ⟨3, "E", "F", "e@x.com", 5, f20_00⟩]

/-- A world in which every library call succeeds, the environment is complete and
the downloaded file is the 3-row file of the end-to-end scenario. -/
def world3 : World where
  osCreate := fun _ => none
  NewSession := none
  CredentialsGet := none
  Download := fun _ _ => (1024, none)
  NewLocalFileReader := fun _ => none
  NewParquetColumnReader := none
  GetNumRows := 3
  ReadColumnByIndex := fun index _ =>
    if index = 0 then [Value.INT32 1, Value.INT32 2, Value.INT32 3]
    else if index = 4 then [Value.INT32 2, Value.INT32 1, Value.INT32 5]
    else if index = 5 then [Value.DOUBLE f9_99, Value.DOUBLE f4_50, Value.DOUBLE f20_00]
    else []
  ReadColumnByPath := fun pathStr _ =>
    if pathStr = "FirstName" then [Value.BYTE_ARRAY "A", Value.BYTE_ARRAY "C", Value.BYTE_ARRAY "E"]
    else if pathStr = "LastName" then [Value.BYTE_ARRAY "B", Value.BYTE_ARRAY "D", Value.BYTE_ARRAY "F"]
    else if pathStr = "Email" then
      [Value.BYTE_ARRAY "a@x.com", Value.BYTE_ARRAY "c@x.com", Value.BYTE_ARRAY "e@x.com"]
    else []
  Getenv := fun name =>
    if name = "HOST" then "db.local" else if name = "PORT" then "5432"
    else if name = "rdsuser" then "u" else if name = "rdspassword" then "p"
    else if name = "rdsdb" then "orders" else ""
  Atoi := fun s => if s = "5432" then (5432, none) else (0, some "invalid syntax")
  sqlOpen := fun _ => none
  Begin := none
  Prepare := fun _ => none
  Exec := fun _ _ => none
  stmtClose := none
  Commit := none

/-- The first two rows of the end-to-end scenario. -/
def orders2 : List Order :=
  [⟨1, "A", "B", "a@x.com", 2, f9_99⟩, ⟨2, "C", "D", "c@x.com", 1, f4_50⟩]

/-- As `world3`, but the first call of `stmt.Exec` returns an error. -/
def worldFirstExecFails : World :=
  { world3 with Exec := fun k _ => if k = 0 then some "pq: row rejected" else none }

/-- As `world3`, but the second call of `stmt.Exec` returns an error. -/
def worldSecondExecFails : World :=
  { world3 with Exec := fun k _ => if k = 1 then some "pq: row rejected" else none }

/-- As `world3`, but `txn.Commit` returns an error. -/
def worldCommitFails : World :=
  { world3 with Commit := some "pq: commit failed" }

/-- As `world3`, but the variable `PORT` is not set: `os.Getenv` gives the empty
string, on which `strconv.Atoi` gives 0 and a syntax error. -/
def worldNoPort : World :=
  { world3 with Getenv := fun name => if name = "PORT" then "" else world3.Getenv name }

/-- As `world3`, but the download fails, so the scratch file is left empty and
no column reader can be created on it. -/
def worldDownloadFails : World :=
  { world3 with
    Download := fun _ _ => (0, some "NoSuchKey")
    NewParquetColumnReader := some "seek: invalid argument" }

/-- The trigger event for the object `orders.parquet` of bucket `incoming`. -/
def event3 : S3Event :=
  ⟨[⟨"incoming", ⟨"orders.parquet", 1024, "d41d8cd9"⟩⟩]⟩

/-- As `world3`, but the quantity of the second row is a text value. -/
def worldBadQuantity : World :=
  { world3 with
    ReadColumnByIndex := fun index num =>
      if index = 4 then [Value.INT32 2, Value.BYTE_ARRAY "one", Value.INT32 5]
      else world3.ReadColumnByIndex index num }

/-- As `world3`, but the read of column 0 returns four values for the three rows. -/
def worldLongColumn : World :=
  { world3 with
    ReadColumnByIndex := fun index num =>
      if index = 0 then [Value.INT32 1, Value.INT32 2, Value.INT32 3, Value.INT32 4]
      else world3.ReadColumnByIndex index num }

/-- As `world3`, but the read of the column `Email` returns two values for the three rows. -/
def worldShortColumn : World :=
  { world3 with
    ReadColumnByPath := fun pathStr num =>
      if pathStr = "Email" then [Value.BYTE_ARRAY "a@x.com", Value.BYTE_ARRAY "c@x.com"]
      else world3.ReadColumnByPath pathStr num }

/-! ## The loader -/

theorem execLoop_events (w : World) (orders : List Order) (k : Nat) (err : Option Error) :
    ∀ e ∈ (execLoop w orders k err).1, ∃ order r, e = Event.Exec (execArgs order) r := by
  induction orders generalizing k err with
  | nil => intro e h; simp [execLoop] at h
  | cons o rest ih =>
    intro e h
    simp only [execLoop, List.mem_cons] at h
    rcases h with h | h
    · exact ⟨o, _, h⟩
    · exact ih _ _ e h

theorem commit_not_mem_execLoop (w : World) (orders : List Order) (k : Nat)
    (err r : Option Error) : Event.Commit r ∉ (execLoop w orders k err).1 := by
  intro h
  obtain ⟨o, r', h'⟩ := execLoop_events w orders k err _ h
  cases h'

theorem execLoop_all_ok (w : World) (hExec : ∀ k args, w.Exec k args = none)
    (orders : List Order) (k : Nat) :
    execLoop w orders k none = (orders.map (fun order => Event.Exec (execArgs order) none), none) := by
  induction orders generalizing k with
  | nil => rfl
  | cons o rest ih => simp only [execLoop, hExec, ih, List.map_cons]

/-- C2 (atomicity of `sendOrdersToDataBase`): for every batch and every
combination of answers of the database, a run that does not return normally
contains no `txn.Commit` that returned nil; and whenever `txn.Commit` is called
at all, the two calls just before it are the finalize `Exec()` and `stmt.Close`,
both of which returned nil. -/
theorem sendOrdersToDataBase_atomic (w : World) (orders : List Order) :
    ((sendOrdersToDataBase w orders).2 ≠ Outcome.returned () →
        Event.Commit none ∉ (sendOrdersToDataBase w orders).1) ∧
    (∀ r, Event.Commit r ∈ (sendOrdersToDataBase w orders).1 →
        ∃ pre post, (sendOrdersToDataBase w orders).1 =
          pre ++ [Event.Exec [] none, Event.stmtClose none, Event.Commit r] ++ post) := by
  have hl := commit_not_mem_execLoop w orders 0 none
  simp only [sendOrdersToDataBase]
  split
  · simp
  split
  · simp
  split
  · simp
  split
  · simp [hl]
  split
  · simp [hl]
  split
  · simp [hl]
  split
  · simp only [hl, *]
    simp only [ne_eq, reduceCtorEq, not_false_eq_true, List.mem_cons, List.mem_append, hl,
      List.mem_singleton, List.mem_nil_iff, or_false, false_or, Event.Commit.injEq, true_implies,
      List.append_assoc, List.cons_append, List.nil_append, not_or, and_true, true_and]
    intro r hr
    subst hr
    exact ⟨_ :: _ :: _ :: (execLoop w orders 0 none).1, [], rfl⟩
  · simp only [hl, *]
    simp only [ne_eq, not_true_eq_false, false_implies, List.mem_cons, List.mem_append, hl,
      List.mem_singleton, List.mem_nil_iff, or_false, false_or, Event.Commit.injEq, true_and,
      List.append_assoc, List.cons_append, List.nil_append, reduceCtorEq]
    intro r hr
    subst hr
    exact ⟨_ :: _ :: _ :: (execLoop w orders 0 none).1, [Event.dbClose], rfl⟩

/-- Witness of C2: in the run on the 3-row batch whose `txn.Commit` fails, the
loader ends in `log.Fatal` and the trace holds no successful `Commit`. -/
theorem sendOrdersToDataBase_atomic_witness :
    (sendOrdersToDataBase worldCommitFails orders3).2 ≠ Outcome.returned () ∧
    Event.Commit none ∉ (sendOrdersToDataBase worldCommitFails orders3).1 :=
  ⟨by decide, (sendOrdersToDataBase_atomic worldCommitFails orders3).1 (by decide)⟩

/-- C10 (bulk-copy protocol order): when every database operation succeeds, the
run of `sendOrdersToDataBase` is exactly: `sql.Open`, then `Begin`, `Prepare` of
`CopyIn` for table `test_orders` with columns orderid, firstname, lastname,
email, quantity, ordertotal, one `Exec` per row in batch order, the argument-less
finalize `Exec()`, `stmt.Close`, `txn.Commit`, and last the deferred `db.Close`;
and the function returns. -/
theorem sendOrdersToDataBase_protocol_order (w : World) (orders : List Order)
    (hOpen : ∀ dataSourceName, w.sqlOpen dataSourceName = none)
    (hBegin : w.Begin = none)
    (hPrepare : ∀ query, w.Prepare query = none)
    (hExec : ∀ k args, w.Exec k args = none)
    (hClose : w.stmtClose = none)
    (hCommit : w.Commit = none) :
    sendOrdersToDataBase w orders =
      ([Event.sqlOpen "postgres"
          (psqlInfo (w.Getenv "HOST") (w.Atoi (w.Getenv "PORT")).1 (w.Getenv "rdsuser")
            (w.Getenv "rdspassword") (w.Getenv "rdsdb")) none,
        Event.Begin none,
        Event.Prepare ⟨"test_orders",
          ["orderid", "firstname", "lastname", "email", "quantity", "ordertotal"]⟩ none] ++
       orders.map (fun order => Event.Exec
          [Arg.int32 order.OrderID, Arg.string order.FirstName, Arg.string order.LastName,
           Arg.string order.Email, Arg.int32 order.Quantity, Arg.float64 order.OrderTotal] none) ++
       [Event.Exec [] none, Event.stmtClose none, Event.Commit none, Event.dbClose],
       Outcome.returned ()) := by
  simp only [sendOrdersToDataBase, hOpen, hBegin, hPrepare, hExec, hClose, hCommit,
    execLoop_all_ok w hExec, copyInTestOrders, execArgs, List.append_assoc, List.cons_append,
    List.nil_append]

/-- Witness of C10: the run on the 3-row batch in the world where every call succeeds. -/
theorem sendOrdersToDataBase_protocol_order_witness :
    sendOrdersToDataBase world3 orders3 =
      ([Event.sqlOpen "postgres"
          "host=db.local port=5432 user=u password=p dbname=orders sslmode=disable" none,
        Event.Begin none,
        Event.Prepare ⟨"test_orders",
          ["orderid", "firstname", "lastname", "email", "quantity", "ordertotal"]⟩ none,
        Event.Exec [Arg.int32 1, Arg.string "A", Arg.string "B", Arg.string "a@x.com",
          Arg.int32 2, Arg.float64 f9_99] none,
        Event.Exec [Arg.int32 2, Arg.string "C", Arg.string "D", Arg.string "c@x.com",
          Arg.int32 1, Arg.float64 f4_50] none,
        Event.Exec [Arg.int32 3, Arg.string "E", Arg.string "F", Arg.string "e@x.com",
          Arg.int32 5, Arg.float64 f20_00] none,
        Event.Exec [] none, Event.stmtClose none, Event.Commit none, Event.dbClose],
       Outcome.returned ()) :=
  (sendOrdersToDataBase_protocol_order world3 orders3 (fun _ => rfl) rfl (fun _ => rfl)
    (fun _ _ => rfl) rfl rfl).trans (by decide)

/-! ## The decoder -/

theorem HasSuffix_iff (s suffix : String) :
    HasSuffix s suffix = true ↔ ∃ pre : String, s = pre ++ suffix := by
  unfold HasSuffix
  simp only [Bool.and_eq_true, decide_eq_true_eq, beq_iff_eq, String.length]
  constructor
  · rintro ⟨_, hdrop⟩
    refine ⟨⟨s.data.take (s.data.length - suffix.data.length)⟩, String.ext ?_⟩
    rw [String.data_append]
    show s.data = s.data.take (s.data.length - suffix.data.length) ++ suffix.data
    exact (hdrop ▸ List.take_append_drop _ s.data).symm
  · rintro ⟨pre, rfl⟩
    simp only [String.data_append, List.length_append, Nat.le_add_left, Nat.add_sub_cancel,
      List.drop_left, and_self]

theorem loaderCalls_append (s t : List Event) :
    loaderCalls (s ++ t) = loaderCalls s ++ loaderCalls t := by
  simp [loaderCalls]

theorem loaderCalls_execLoop (w : World) (orders : List Order) (k : Nat) (err : Option Error) :
    loaderCalls (execLoop w orders k err).1 = [] := by
  unfold loaderCalls
  rw [List.filterMap_eq_nil_iff]
  intro e he
  obtain ⟨o, r, rfl⟩ := execLoop_events w orders k err e he
  rfl

theorem loaderCalls_sendOrdersToDataBase (w : World) (orders : List Order) :
    loaderCalls (sendOrdersToDataBase w orders).1 = [] := by
  have hl := loaderCalls_execLoop w orders 0 none
  simp only [sendOrdersToDataBase]
  repeat' split
  all_goals simp only [loaderCalls_append, hl, List.append_nil, List.nil_append]
  all_goals rfl

theorem INT32_cases (xs : List Value) (i : Nat) :
    (∃ v, xs[i]? = some (Value.INT32 v) ∧ (index xs i >>= assertINT32) = Except.ok v) ∨
    (isINT32At xs i = false ∧ ∃ p, (index xs i >>= assertINT32) = Except.error p) := by
  unfold index isINT32At
  cases h : xs[i]? with
  | none => exact Or.inr ⟨rfl, _, rfl⟩
  | some v => cases v <;> first | exact Or.inl ⟨_, rfl, rfl⟩ | exact Or.inr ⟨rfl, _, rfl⟩

theorem BYTE_ARRAY_cases (xs : List Value) (i : Nat) :
    (∃ v, xs[i]? = some (Value.BYTE_ARRAY v) ∧ (index xs i >>= assertBYTE_ARRAY) = Except.ok v) ∨
    (isBYTE_ARRAYAt xs i = false ∧ ∃ p, (index xs i >>= assertBYTE_ARRAY) = Except.error p) := by
  unfold index isBYTE_ARRAYAt
  cases h : xs[i]? with
  | none => exact Or.inr ⟨rfl, _, rfl⟩
  | some v => cases v <;> first | exact Or.inl ⟨_, rfl, rfl⟩ | exact Or.inr ⟨rfl, _, rfl⟩

theorem DOUBLE_cases (xs : List Value) (i : Nat) :
    (∃ v, xs[i]? = some (Value.DOUBLE v) ∧ (index xs i >>= assertDOUBLE) = Except.ok v) ∨
    (isDOUBLEAt xs i = false ∧ ∃ p, (index xs i >>= assertDOUBLE) = Except.error p) := by
  unfold index isDOUBLEAt
  cases h : xs[i]? with
  | none => exact Or.inr ⟨rfl, _, rfl⟩
  | some v => cases v <;> first | exact Or.inl ⟨_, rfl, rfl⟩ | exact Or.inr ⟨rfl, _, rfl⟩

/-- One row of the decoder: either all six entries at index `i` are present with
the expected dynamic type and the row is built from exactly them, or one of them
is not and the row panics. -/
theorem buildOrder_cases (orderIDs firstNames lastNames emails quantities orderTotals : List Value)
    (i : Nat) :
    (∃ order,
      buildOrder orderIDs firstNames lastNames emails quantities orderTotals i = Except.ok order ∧
      orderIDs[i]? = some (Value.INT32 order.OrderID) ∧
      firstNames[i]? = some (Value.BYTE_ARRAY order.FirstName) ∧
      lastNames[i]? = some (Value.BYTE_ARRAY order.LastName) ∧
      emails[i]? = some (Value.BYTE_ARRAY order.Email) ∧
      quantities[i]? = some (Value.INT32 order.Quantity) ∧
      orderTotals[i]? = some (Value.DOUBLE order.OrderTotal)) ∨
    ((isINT32At orderIDs i = false ∨ isBYTE_ARRAYAt firstNames i = false ∨
        isBYTE_ARRAYAt lastNames i = false ∨ isBYTE_ARRAYAt emails i = false ∨
        isINT32At quantities i = false ∨ isDOUBLEAt orderTotals i = false) ∧
      ∃ p, buildOrder orderIDs firstNames lastNames emails quantities orderTotals i =
        Except.error p) := by
  unfold buildOrder
  rcases INT32_cases orderIDs i with ⟨a, ha, ea⟩ | ⟨ha, p, ea⟩
  swap
  · exact Or.inr ⟨by simp [ha], p, by rw [ea]; rfl⟩
  rcases BYTE_ARRAY_cases firstNames i with ⟨b, hb, eb⟩ | ⟨hb, p, eb⟩
  swap
  · exact Or.inr ⟨by simp [hb], p, by rw [ea, eb]; rfl⟩
  rcases BYTE_ARRAY_cases lastNames i with ⟨c, hc, ec⟩ | ⟨hc, p, ec⟩
  swap
  · exact Or.inr ⟨by simp [hc], p, by rw [ea, eb, ec]; rfl⟩
  rcases BYTE_ARRAY_cases emails i with ⟨d, hd, ed⟩ | ⟨hd, p, ed⟩
  swap
  · exact Or.inr ⟨by simp [hd], p, by rw [ea, eb, ec, ed]; rfl⟩
  rcases INT32_cases quantities i with ⟨e, he, ee⟩ | ⟨he, p, ee⟩
  swap
  · exact Or.inr ⟨by simp [he], p, by rw [ea, eb, ec, ed, ee]; rfl⟩
  rcases DOUBLE_cases orderTotals i with ⟨f, hf, ef⟩ | ⟨hf, p, ef⟩
  swap
  · exact Or.inr ⟨by simp [hf], p, by rw [ea, eb, ec, ed, ee, ef]; rfl⟩
  exact Or.inl ⟨⟨a, b, c, d, e, f⟩, by rw [ea, eb, ec, ed, ee, ef]; rfl, ha, hb, hc, hd, he, hf⟩

theorem orderLoop_ok (orderIDs firstNames lastNames emails quantities orderTotals : List Value)
    (P : Nat → Order → Prop) (n : Nat) :
    ∀ (i : Nat) (acc : List Order),
      (∀ j, i ≤ j → j < i + n → ∃ order,
        buildOrder orderIDs firstNames lastNames emails quantities orderTotals j = Except.ok order ∧
        P j order) →
      ∃ orders,
        orderLoop orderIDs firstNames lastNames emails quantities orderTotals n i acc =
          Except.ok (acc ++ orders) ∧
        orders.length = n ∧ ∀ j, j < n → ∃ order, orders[j]? = some order ∧ P (i + j) order := by
  induction n with
  | zero =>
    intro i acc _
    exact ⟨[], by simp [orderLoop], rfl, fun j hj => absurd hj (Nat.not_lt_zero j)⟩
  | succ n ih =>
    intro i acc h
    obtain ⟨o, ho, hP⟩ := h i (Nat.le_refl i) (by omega)
    obtain ⟨rest, hrest, hlen, hrows⟩ :=
      ih (i + 1) (acc ++ [o]) (fun j h1 h2 => h j (by omega) (by omega))
    refine ⟨o :: rest, ?_, by simp [hlen], ?_⟩
    · simp only [orderLoop, ho, hrest, List.append_assoc, List.singleton_append]
    · intro j hj
      cases j with
      | zero => exact ⟨o, by simp, hP⟩
      | succ j =>
        obtain ⟨o', ho', hP'⟩ := hrows j (by omega)
        refine ⟨o', by simpa using ho', ?_⟩
        have e : i + (j + 1) = i + 1 + j := by omega
        rw [e]
        exact hP'

theorem orderLoop_error (orderIDs firstNames lastNames emails quantities orderTotals : List Value)
    (j : Nat) (n : Nat) :
    ∀ (i : Nat) (acc : List Order), i ≤ j → j < i + n →
      (∃ p, buildOrder orderIDs firstNames lastNames emails quantities orderTotals j =
        Except.error p) →
      ∃ p, orderLoop orderIDs firstNames lastNames emails quantities orderTotals n i acc =
        Except.error p := by
  induction n with
  | zero => intro i acc h1 h2; omega
  | succ n ih =>
    intro i acc h1 h2 hbad
    unfold orderLoop
    cases hb : buildOrder orderIDs firstNames lastNames emails quantities orderTotals i with
    | error p => exact ⟨p, rfl⟩
    | ok o =>
      have hne : i ≠ j := by
        rintro rfl
        obtain ⟨p, hp⟩ := hbad
        rw [hp] at hb
        cases hb
      exact ih (i + 1) (acc ++ [o]) (by omega) (by omega) hbad

/-- A bad entry below the declared row count stops the decoder before the loader. -/
theorem readParquetFile_fails_of_bad_row (w : World) (filepath : String) (i : Nat)
    (hi : (i : Int) < w.GetNumRows)
    (hbad : ∃ p, buildOrder (w.ReadColumnByIndex 0 w.GetNumRows)
      (w.ReadColumnByPath "FirstName" w.GetNumRows) (w.ReadColumnByPath "LastName" w.GetNumRows)
      (w.ReadColumnByPath "Email" w.GetNumRows) (w.ReadColumnByIndex 4 w.GetNumRows)
      (w.ReadColumnByIndex 5 w.GetNumRows) i = Except.error p) :
    (readParquetFile w filepath).2 ≠ Outcome.returned () ∧
      loaderCalls (readParquetFile w filepath).1 = [] := by
  obtain ⟨p, hp⟩ := orderLoop_error _ _ _ _ _ _ i w.GetNumRows.toNat 0 [] (Nat.zero_le i)
    (by omega) hbad
  simp only [readParquetFile]
  split
  · exact ⟨by simp, rfl⟩
  split
  · exact ⟨by simp, rfl⟩
  split
  · exact ⟨by simp, rfl⟩
  split
  · exact ⟨by simp, rfl⟩
  rw [hp]
  exact ⟨by simp, rfl⟩

theorem isINT32At_map (xs : List Int) (i : Nat) (h : i < xs.length) :
    isINT32At (xs.map Value.INT32) i = true := by
  simp [isINT32At, List.getElem?_map, List.getElem?_eq_getElem h]

theorem isBYTE_ARRAYAt_map (xs : List String) (i : Nat) (h : i < xs.length) :
    isBYTE_ARRAYAt (xs.map Value.BYTE_ARRAY) i = true := by
  simp [isBYTE_ARRAYAt, List.getElem?_map, List.getElem?_eq_getElem h]

theorem isDOUBLEAt_map (xs : List float64) (i : Nat) (h : i < xs.length) :
    isDOUBLEAt (xs.map Value.DOUBLE) i = true := by
  simp [isDOUBLEAt, List.getElem?_map, List.getElem?_eq_getElem h]

theorem isINT32At_of_length_le (xs : List Value) (i : Nat) (h : xs.length ≤ i) :
    isINT32At xs i = false := by
  simp [isINT32At, List.getElem?_eq_none h]

theorem isBYTE_ARRAYAt_of_length_le (xs : List Value) (i : Nat) (h : xs.length ≤ i) :
    isBYTE_ARRAYAt xs i = false := by
  simp [isBYTE_ARRAYAt, List.getElem?_eq_none h]

theorem isDOUBLEAt_of_length_le (xs : List Value) (i : Nat) (h : xs.length ≤ i) :
    isDOUBLEAt xs i = false := by
  simp [isDOUBLEAt, List.getElem?_eq_none h]

/-- C1 (row alignment): when the path passes the suffix check, the file and the
column reader open, the declared row count is `N`, and the six column reads return
sequences of length `N` whose entries have the expected dynamic types (INT32,
BYTE_ARRAY, BYTE_ARRAY, BYTE_ARRAY, INT32, DOUBLE), then `readParquetFile` calls
`sendOrdersToDataBase` exactly once, with a slice of exactly `N` orders whose
`i`-th record is made of the `i`-th entries of the six columns, for every `i < N`. -/
theorem readParquetFile_row_alignment (w : World) (filepath : String) (N : Nat)
    (orderIDs : List Int) (firstNames lastNames emails : List String)
    (quantities : List Int) (orderTotals : List float64)
    (hSuffix : HasSuffix filepath ".parquet" = true)
    (hOpen : w.NewLocalFileReader filepath = none)
    (hReader : w.NewParquetColumnReader = none)
    (hRows : w.GetNumRows = (N : Int))
    (hOrderIDs : w.ReadColumnByIndex 0 N = orderIDs.map Value.INT32)
    (hFirstNames : w.ReadColumnByPath "FirstName" N = firstNames.map Value.BYTE_ARRAY)
    (hLastNames : w.ReadColumnByPath "LastName" N = lastNames.map Value.BYTE_ARRAY)
    (hEmails : w.ReadColumnByPath "Email" N = emails.map Value.BYTE_ARRAY)
    (hQuantities : w.ReadColumnByIndex 4 N = quantities.map Value.INT32)
    (hOrderTotals : w.ReadColumnByIndex 5 N = orderTotals.map Value.DOUBLE)
    (l1 : orderIDs.length = N) (l2 : firstNames.length = N) (l3 : lastNames.length = N)
    (l4 : emails.length = N) (l5 : quantities.length = N) (l6 : orderTotals.length = N) :
    ∃ orders, loaderCalls (readParquetFile w filepath).1 = [orders] ∧ orders.length = N ∧
      ∀ i (hi : i < N), orders[i]? =
        some ⟨orderIDs[i], firstNames[i], lastNames[i], emails[i], quantities[i],
          orderTotals[i]⟩ := by
  obtain ⟨orders, hloop, hlen, hrows⟩ := orderLoop_ok (orderIDs.map Value.INT32)
    (firstNames.map Value.BYTE_ARRAY) (lastNames.map Value.BYTE_ARRAY)
    (emails.map Value.BYTE_ARRAY) (quantities.map Value.INT32) (orderTotals.map Value.DOUBLE)
    (fun j order =>
      (orderIDs.map Value.INT32)[j]? = some (Value.INT32 order.OrderID) ∧
      (firstNames.map Value.BYTE_ARRAY)[j]? = some (Value.BYTE_ARRAY order.FirstName) ∧
      (lastNames.map Value.BYTE_ARRAY)[j]? = some (Value.BYTE_ARRAY order.LastName) ∧
      (emails.map Value.BYTE_ARRAY)[j]? = some (Value.BYTE_ARRAY order.Email) ∧
      (quantities.map Value.INT32)[j]? = some (Value.INT32 order.Quantity) ∧
      (orderTotals.map Value.DOUBLE)[j]? = some (Value.DOUBLE order.OrderTotal))
    N 0 [] (by
      intro j _ hj
      rcases buildOrder_cases (orderIDs.map Value.INT32)
        (firstNames.map Value.BYTE_ARRAY) (lastNames.map Value.BYTE_ARRAY)
        (emails.map Value.BYTE_ARRAY) (quantities.map Value.INT32)
        (orderTotals.map Value.DOUBLE) j with ⟨o, ho, hP⟩ | ⟨hbad, _⟩
      · exact ⟨o, ho, hP⟩
      · rw [isINT32At_map _ _ (by omega), isBYTE_ARRAYAt_map _ _ (by omega),
          isBYTE_ARRAYAt_map _ _ (by omega), isBYTE_ARRAYAt_map _ _ (by omega),
          isINT32At_map _ _ (by omega), isDOUBLEAt_map _ _ (by omega)] at hbad
        simp at hbad)
  refine ⟨orders, ?_, hlen, ?_⟩
  · have hneg : ¬ ((N : Int) < 0) := by omega
    have hs := loaderCalls_sendOrdersToDataBase w orders
    simp only [readParquetFile, hSuffix, hOpen, hReader, hRows, hOrderIDs, hFirstNames,
      hLastNames, hEmails, hQuantities, hOrderTotals, Int.toNat_ofNat, hloop, hneg,
      List.nil_append, Bool.not_true, Bool.false_eq_true, if_false]
    split <;>
      simp only [loaderCalls_append, hs, List.append_nil] <;> rfl
  · intro i hi
    obtain ⟨o, ho, h1, h2, h3, h4, h5, h6⟩ := hrows i hi
    rw [ho]
    simp only [Nat.zero_add, List.getElem?_map] at h1 h2 h3 h4 h5 h6
    rw [List.getElem?_eq_getElem (by omega)] at h1 h2 h3 h4 h5 h6
    simp only [Option.map_some', Option.some.injEq, Value.INT32.injEq, Value.BYTE_ARRAY.injEq,
      Value.DOUBLE.injEq] at h1 h2 h3 h4 h5 h6
    rw [h1, h2, h3, h4, h5, h6]

/-- Witness of C1: for the 3-row file of the end-to-end scenario the loader is
called once, with exactly the three tuples, in order. -/
theorem readParquetFile_row_alignment_witness :
    loaderCalls (readParquetFile world3 "/tmp/orders.parquet").1 =
      [[⟨1, "A", "B", "a@x.com", 2, f9_99⟩, ⟨2, "C", "D", "c@x.com", 1, f4_50⟩,
        ⟨3, "E", "F", "e@x.com", 5, f20_00⟩]] := by
  obtain ⟨orders, hcalls, hlen, hrow⟩ := readParquetFile_row_alignment world3
    "/tmp/orders.parquet" 3 [1, 2, 3] ["A", "C", "E"] ["B", "D", "F"]
    ["a@x.com", "c@x.com", "e@x.com"] [2, 1, 5] [f9_99, f4_50, f20_00]
    (by decide) rfl rfl rfl rfl rfl rfl rfl rfl rfl rfl rfl rfl rfl rfl rfl
  rw [hcalls]
  congr 1
  apply List.ext_getElem?
  intro i
  rcases Nat.lt_or_ge i 3 with h | h
  · rw [hrow i h]
    interval_cases i <;> rfl
  · rw [List.getElem?_eq_none (by omega), List.getElem?_eq_none (by simpa using h)]

/-- C4 (coercion strictness): if at some index `i` below the declared row count
one of the six column entries is absent or does not have the expected dynamic
type, `readParquetFile` does not return normally and `sendOrdersToDataBase` is
never called: no order, and so no substituted value, reaches the loader. -/
theorem readParquetFile_coercion_strict (w : World) (filepath : String) (i : Nat)
    (hi : (i : Int) < w.GetNumRows)
    (hbad : isINT32At (w.ReadColumnByIndex 0 w.GetNumRows) i = false ∨
      isBYTE_ARRAYAt (w.ReadColumnByPath "FirstName" w.GetNumRows) i = false ∨
      isBYTE_ARRAYAt (w.ReadColumnByPath "LastName" w.GetNumRows) i = false ∨
      isBYTE_ARRAYAt (w.ReadColumnByPath "Email" w.GetNumRows) i = false ∨
      isINT32At (w.ReadColumnByIndex 4 w.GetNumRows) i = false ∨
      isDOUBLEAt (w.ReadColumnByIndex 5 w.GetNumRows) i = false) :
    (readParquetFile w filepath).2 ≠ Outcome.returned () ∧
      loaderCalls (readParquetFile w filepath).1 = [] := by
  apply readParquetFile_fails_of_bad_row w filepath i hi
  rcases buildOrder_cases (w.ReadColumnByIndex 0 w.GetNumRows)
    (w.ReadColumnByPath "FirstName" w.GetNumRows) (w.ReadColumnByPath "LastName" w.GetNumRows)
    (w.ReadColumnByPath "Email" w.GetNumRows) (w.ReadColumnByIndex 4 w.GetNumRows)
    (w.ReadColumnByIndex 5 w.GetNumRows) i with ⟨o, _, h1, h2, h3, h4, h5, h6⟩ | ⟨_, hp⟩
  · exfalso
    simp only [isINT32At, isBYTE_ARRAYAt, isDOUBLEAt, h1, h2, h3, h4, h5, h6] at hbad
    simp at hbad
  · exact hp

/-- Witness of C4: the 3-row file whose second row has a text quantity is
rejected, and the loader is not called. -/
theorem readParquetFile_coercion_strict_witness :
    isINT32At (worldBadQuantity.ReadColumnByIndex 4 worldBadQuantity.GetNumRows) 1 = false ∧
    (readParquetFile worldBadQuantity "/tmp/orders.parquet").2 ≠ Outcome.returned () ∧
    loaderCalls (readParquetFile worldBadQuantity "/tmp/orders.parquet").1 = [] :=
  ⟨by decide, readParquetFile_coercion_strict worldBadQuantity "/tmp/orders.parquet" 1
    (by decide) (by decide)⟩

/-- Counterexample to C5: the read of column 0 returns four values for three
declared rows; the decoder does not notice, returns normally and hands the first
three rows to the loader. -/
theorem readParquetFile_long_column_accepted :
    ((worldLongColumn.ReadColumnByIndex 0 worldLongColumn.GetNumRows).length : Int) ≠
      worldLongColumn.GetNumRows ∧
    (readParquetFile worldLongColumn "/tmp/orders.parquet").2 = Outcome.returned () ∧
    loaderCalls (readParquetFile worldLongColumn "/tmp/orders.parquet").1 = [orders3] := by
  decide

/-- C5, amended: if one of the six sequences returned by the column reads is
shorter than the declared row count, `readParquetFile` does not return normally
and `sendOrdersToDataBase` is never called. -/
theorem readParquetFile_short_column_rejected (w : World) (filepath : String)
    (hshort :
      ((w.ReadColumnByIndex 0 w.GetNumRows).length : Int) < w.GetNumRows ∨
      ((w.ReadColumnByPath "FirstName" w.GetNumRows).length : Int) < w.GetNumRows ∨
      ((w.ReadColumnByPath "LastName" w.GetNumRows).length : Int) < w.GetNumRows ∨
      ((w.ReadColumnByPath "Email" w.GetNumRows).length : Int) < w.GetNumRows ∨
      ((w.ReadColumnByIndex 4 w.GetNumRows).length : Int) < w.GetNumRows ∨
      ((w.ReadColumnByIndex 5 w.GetNumRows).length : Int) < w.GetNumRows) :
    (readParquetFile w filepath).2 ≠ Outcome.returned () ∧
      loaderCalls (readParquetFile w filepath).1 = [] := by
  have key : ∀ (xs : List Value), ((xs.length : Int) < w.GetNumRows) →
      (∃ p, buildOrder (w.ReadColumnByIndex 0 w.GetNumRows)
        (w.ReadColumnByPath "FirstName" w.GetNumRows)
        (w.ReadColumnByPath "LastName" w.GetNumRows)
        (w.ReadColumnByPath "Email" w.GetNumRows) (w.ReadColumnByIndex 4 w.GetNumRows)
        (w.ReadColumnByIndex 5 w.GetNumRows) xs.length = Except.error p) →
      (readParquetFile w filepath).2 ≠ Outcome.returned () ∧
        loaderCalls (readParquetFile w filepath).1 = [] :=
    fun xs h hp => readParquetFile_fails_of_bad_row w filepath xs.length h hp
  have bad : ∀ (i : Nat),
      (isINT32At (w.ReadColumnByIndex 0 w.GetNumRows) i = false ∨
      isBYTE_ARRAYAt (w.ReadColumnByPath "FirstName" w.GetNumRows) i = false ∨
      isBYTE_ARRAYAt (w.ReadColumnByPath "LastName" w.GetNumRows) i = false ∨
      isBYTE_ARRAYAt (w.ReadColumnByPath "Email" w.GetNumRows) i = false ∨
      isINT32At (w.ReadColumnByIndex 4 w.GetNumRows) i = false ∨
      isDOUBLEAt (w.ReadColumnByIndex 5 w.GetNumRows) i = false) →
      ∃ p, buildOrder (w.ReadColumnByIndex 0 w.GetNumRows)
        (w.ReadColumnByPath "FirstName" w.GetNumRows)
        (w.ReadColumnByPath "LastName" w.GetNumRows)
        (w.ReadColumnByPath "Email" w.GetNumRows) (w.ReadColumnByIndex 4 w.GetNumRows)
        (w.ReadColumnByIndex 5 w.GetNumRows) i = Except.error p := by
    intro i hbad
    rcases buildOrder_cases (w.ReadColumnByIndex 0 w.GetNumRows)
      (w.ReadColumnByPath "FirstName" w.GetNumRows) (w.ReadColumnByPath "LastName" w.GetNumRows)
      (w.ReadColumnByPath "Email" w.GetNumRows) (w.ReadColumnByIndex 4 w.GetNumRows)
      (w.ReadColumnByIndex 5 w.GetNumRows) i with ⟨o, _, h1, h2, h3, h4, h5, h6⟩ | ⟨_, hp⟩
    · exfalso
      simp only [isINT32At, isBYTE_ARRAYAt, isDOUBLEAt, h1, h2, h3, h4, h5, h6] at hbad
      simp at hbad
    · exact hp
  rcases hshort with h | h | h | h | h | h
  · exact key _ h (bad _ (Or.inl (isINT32At_of_length_le _ _ (Nat.le_refl _))))
  · exact key _ h (bad _ (Or.inr (Or.inl (isBYTE_ARRAYAt_of_length_le _ _ (Nat.le_refl _)))))
  · exact key _ h (bad _ (Or.inr (Or.inr (Or.inl
      (isBYTE_ARRAYAt_of_length_le _ _ (Nat.le_refl _))))))
  · exact key _ h (bad _ (Or.inr (Or.inr (Or.inr (Or.inl
      (isBYTE_ARRAYAt_of_length_le _ _ (Nat.le_refl _)))))))
  · exact key _ h (bad _ (Or.inr (Or.inr (Or.inr (Or.inr (Or.inl
      (isINT32At_of_length_le _ _ (Nat.le_refl _))))))))
  · exact key _ h (bad _ (Or.inr (Or.inr (Or.inr (Or.inr (Or.inr
      (isDOUBLEAt_of_length_le _ _ (Nat.le_refl _))))))))

/-- Witness of C5, amended: the read of `Email` returns two values for three
declared rows; the decoder fails and the loader is not called. -/
theorem readParquetFile_short_column_rejected_witness :
    ((worldShortColumn.ReadColumnByPath "Email" worldShortColumn.GetNumRows).length : Int) <
      worldShortColumn.GetNumRows ∧
    (readParquetFile worldShortColumn "/tmp/orders.parquet").2 ≠ Outcome.returned () ∧
    loaderCalls (readParquetFile worldShortColumn "/tmp/orders.parquet").1 = [] :=
  ⟨by decide, readParquetFile_short_column_rejected worldShortColumn "/tmp/orders.parquet"
    (Or.inr (Or.inr (Or.inr (Or.inl (by decide)))))⟩

/-- C7 (format rejection): a path that does not end in `.parquet` makes
`readParquetFile` end in `log.Fatalln` with an empty trace: the file is not
opened, no column is read, the loader is not called.  A path that does end in
`.parquet` passes the suffix check, and the first thing the function does is to
open that file. -/
theorem readParquetFile_format_rejection (w : World) (filepath : String) :
    ((¬ ∃ pre : String, filepath = pre ++ ".parquet") →
      readParquetFile w filepath =
        ([], Outcome.fatal "Only capable of parsing parquet files")) ∧
    ((∃ pre : String, filepath = pre ++ ".parquet") →
      HasSuffix filepath ".parquet" = true ∧
      (readParquetFile w filepath).1.head? =
        some (Event.NewLocalFileReader filepath (w.NewLocalFileReader filepath))) := by
  constructor
  · intro h
    have hs : HasSuffix filepath ".parquet" = false := by
      cases hb : HasSuffix filepath ".parquet" with
      | false => rfl
      | true => exact absurd ((HasSuffix_iff _ _).1 hb) h
    simp [readParquetFile, hs]
  · intro h
    have hs : HasSuffix filepath ".parquet" = true := (HasSuffix_iff _ _).2 h
    refine ⟨hs, ?_⟩
    simp only [readParquetFile, hs, Bool.not_true, Bool.false_eq_true, if_false]
    repeat' split
    all_goals rfl

/-- Witness of C7: `/tmp/orders.csv` is rejected with an empty trace, and
`/tmp/orders.parquet` passes the check and is opened. -/
theorem readParquetFile_format_rejection_witness :
    readParquetFile world3 "/tmp/orders.csv" =
      ([], Outcome.fatal "Only capable of parsing parquet files") ∧
    (readParquetFile world3 "/tmp/orders.parquet").1.head? =
      some (Event.NewLocalFileReader "/tmp/orders.parquet" none) :=
  ⟨(readParquetFile_format_rejection world3 "/tmp/orders.csv").1
      (fun h => by
        have hs := (HasSuffix_iff "/tmp/orders.csv" ".parquet").2 h
        exact absurd hs (by decide)),
   ((readParquetFile_format_rejection world3 "/tmp/orders.parquet").2
      ⟨"/tmp/orders", by decide⟩).2⟩

/-! ## Runs in which the program departs from its specification -/

/-- C3 at a failing input: on the 2-row batch where `stmt.Exec` fails for row 0
and succeeds afterwards, the loader still feeds row 1, issues the finalize
`Exec()`, closes the statement, commits and returns. -/
theorem sendOrdersToDataBase_first_row_error_ignored :
    sendOrdersToDataBase worldFirstExecFails orders2 =
      ([Event.sqlOpen "postgres"
          "host=db.local port=5432 user=u password=p dbname=orders sslmode=disable" none,
        Event.Begin none,
        Event.Prepare ⟨"test_orders",
          ["orderid", "firstname", "lastname", "email", "quantity", "ordertotal"]⟩ none,
        Event.Exec [Arg.int32 1, Arg.string "A", Arg.string "B", Arg.string "a@x.com",
          Arg.int32 2, Arg.float64 f9_99] (some "pq: row rejected"),
        Event.Exec [Arg.int32 2, Arg.string "C", Arg.string "D", Arg.string "c@x.com",
          Arg.int32 1, Arg.float64 f4_50] none,
        Event.Exec [] none, Event.stmtClose none, Event.Commit none, Event.dbClose],
       Outcome.returned ()) := by
  decide

/-- C6 at a failing input: on the 3-row batch where `stmt.Exec` fails for the
middle row only, the loader returns normally and commits, although one of the
row `Exec` calls returned an error. -/
theorem sendOrdersToDataBase_success_with_failed_row :
    (sendOrdersToDataBase worldSecondExecFails orders3).2 = Outcome.returned () ∧
    Event.Exec [Arg.int32 2, Arg.string "C", Arg.string "D", Arg.string "c@x.com",
        Arg.int32 1, Arg.float64 f4_50] (some "pq: row rejected") ∈
      (sendOrdersToDataBase worldSecondExecFails orders3).1 ∧
    Event.Commit none ∈ (sendOrdersToDataBase worldSecondExecFails orders3).1 := by
  decide

/-- C8 at a failing input: the download fails, and `HandleRequest` goes on to
call `readParquetFile` on the scratch file, which opens it; the run then ends in
`log.Fatalln` inside the decoder and the download error is not returned. -/
theorem HandleRequest_continues_after_failed_download :
    HandleRequest worldDownloadFails event3 =
      ([Event.Print "Bucket incoming Filename orders.parquet\n",
        Event.osCreate "/tmp/orders.parquet" none,
        Event.NewSession none,
        Event.CredentialsGet none,
        Event.Print "Downloading incoming/orders.parquet\n",
        Event.Download "incoming" "orders.parquet" 0 (some "NoSuchKey"),
        Event.Print "file downloaded, 0 bytes\n",
        Event.readParquetFile "/tmp/orders.parquet",
        Event.NewLocalFileReader "/tmp/orders.parquet" none,
        Event.NewParquetColumnReader 4 (some "seek: invalid argument")],
       Outcome.fatal "Unable to create column reader") := by
  decide

/-- C9 at a failing input: with `PORT` unset, `strconv.Atoi` returns an error,
and the loader nevertheless opens the database with `port=0` in the connection
string, begins a transaction, loads the batch and returns normally. -/
theorem sendOrdersToDataBase_unset_port_used :
    (worldNoPort.Atoi (worldNoPort.Getenv "PORT")).2 = some "invalid syntax" ∧
    (sendOrdersToDataBase worldNoPort orders3).1.take 2 =
      [Event.sqlOpen "postgres"
          "host=db.local port=0 user=u password=p dbname=orders sslmode=disable" none,
        Event.Begin none] ∧
    (sendOrdersToDataBase worldNoPort orders3).2 = Outcome.returned () := by
  decide

end POCLambda
